import Mathlib

/-!
Shallow embedding of the Token Metadata instruction router, lock guard,
classifier, authorization validator and frozen-transfer path
(`processor/mod.rs` and `utils/programmable_asset.rs`), together with
theorems settling the claims about them.

Pubkeys are modelled as natural numbers, account data as lists of bytes
(naturals).  Rust panics (out-of-bounds indexing, `.unwrap()` on `Err`)
are modelled by the distinguished `Failure.panicked` outcome; ordinary
`ProgramError` returns are `Failure.program`.  External collaborators
(the SPL token ledger, the auth-rules oracle, program-derived-address
computation) are passed in as function parameters.
-/

namespace TM

/-- An account as seen by the program: its address, its owner and its data. -/
structure AccountInfo where
  key : Nat
  owner : Nat
  data : List Nat
deriving DecidableEq

/-- The metadata-program errors the embedded fragment can produce. -/
inductive MetadataError where
  | LockedToken
  | InstructionNotSupported
  | InvalidAuthorizationRules
  | InvalidOperation
  | MissingEditionAccount
  | DerivedKeyInvalid
  | Removed
  | DataTypeMismatch
deriving DecidableEq

/-- Program-level errors: metadata errors, the router's generic errors, a
borsh deserialization failure, or a custom error code surfaced by another
program (e.g. the auth-rules oracle or the SPL token program). -/
inductive ProgramError where
  | metadata (e : MetadataError)
  | invalidInstructionData
  | notEnoughAccountKeys
  | borshIo
  | custom (code : Nat)
deriving DecidableEq

/-- How an invocation can fail: with a returned typed error, or by a Rust
panic (index out of bounds, `.unwrap()` on an `Err`). -/
inductive Failure where
  | program (e : ProgramError)
  | panicked
deriving DecidableEq

/-- Decidable equality for outcomes, used to evaluate the embedding on
concrete inputs. -/
instance exceptDecEq {ε α : Type} [DecidableEq ε] [DecidableEq α] :
    DecidableEq (Except ε α) := fun x y =>
  match x, y with
  | .ok a, .ok b =>
    match decEq a b with
    | isTrue h => isTrue (by rw [h])
    | isFalse h => isFalse (by intro hh; exact h (Except.ok.inj hh))
  | .error a, .error b =>
    match decEq a b with
    | isTrue h => isTrue (by rw [h])
    | isFalse h => isFalse (by intro hh; exact h (Except.error.inj hh))
  | .ok _, .error _ => isFalse (by intro hh; exact Except.noConfusion hh)
  | .error _, .ok _ => isFalse (by intro hh; exact Except.noConfusion hh)

/-- Modelled from the spec: the state module (not among the sources) fixes
the byte offset of the record discriminator. -/
def DISCRIMINATOR_INDEX : Nat := 0

/-- Modelled from the spec: the state module (not among the sources) fixes
the byte offset of the token record's lock-state byte (after the one-byte
discriminator and one-byte bump). -/
def TOKEN_STATE_INDEX : Nat := 2

namespace Key

/-- Modelled from the spec: discriminator tag of an Asset Record. -/
def MetadataV1 : Nat := 4

/-- Modelled from the spec: discriminator tag of a State Record. -/
def TokenRecord : Nat := 11

end Key

namespace TokenState

/-- Modelled from the spec: byte value of the Unlocked lock state. -/
def Unlocked : Nat := 0

/-- Modelled from the spec: byte value of the Locked lock state. -/
def Locked : Nat := 1

/-- Modelled from the spec: byte value of the Listed lock state. -/
def Listed : Nat := 2

end TokenState

/-- The token standards an Asset Record may carry. -/
inductive TokenStandard where
  | NonFungible
  | FungibleAsset
  | Fungible
  | NonFungibleEdition
  | ProgrammableNonFungible
deriving DecidableEq

/-- Decode a token-standard tag byte. -/
def TokenStandard.ofTag : Nat → Option TokenStandard
  | 0 => some .NonFungible
  | 1 => some .FungibleAsset
  | 2 => some .Fungible
  | 3 => some .NonFungibleEdition
  | 4 => some .ProgrammableNonFungible
  | _ => none

/-- The fields of the Asset Record the embedded fragment reads. -/
structure Metadata where
  token_standard : Option TokenStandard
deriving DecidableEq

/-- Modelled from the spec: the state module's borsh decode of the Asset
Record (`Metadata::from_account_info`) is not among the sources.  Following
the spec's data model, the record is its discriminator tag followed by a
borsh-style optional token standard: option byte 0 for absent, 1 followed
by the standard's tag for present; a wrong discriminator is a type
mismatch, and any other option byte, unknown standard tag or truncated
record is a deserialization failure. -/
def Metadata.from_bytes (data : List Nat) : Except ProgramError Metadata :=
  match data[DISCRIMINATOR_INDEX]? with
  | none => .error .borshIo
  | some tag =>
    if tag = Key.MetadataV1 then
      match data[1]? with
      | some 0 => .ok { token_standard := none }
      | some 1 =>
        match data[2]? with
        | some s =>
          match TokenStandard.ofTag s with
          | some ts => .ok { token_standard := some ts }
          | none => .error .borshIo
        | none => .error .borshIo
      | _ => .error .borshIo
    else .error (.metadata .DataTypeMismatch)

/-- Decode the Asset Record held by an account. -/
def Metadata.from_account_info (a : AccountInfo) : Except ProgramError Metadata :=
  Metadata.from_bytes a.data

/-- Embedding of `is_locked`: scans the accounts for an engine-owned,
non-empty account whose discriminator byte is the State Record tag and
whose lock-state byte is Locked.  The second byte read is performed only
when the discriminator matches (Rust `&&` short-circuits); an
out-of-bounds read is a panic. -/
def is_locked (program_id : Nat) : List AccountInfo → Except Failure Bool
  | [] => .ok false
  | a :: rest =>
    if a.owner = program_id ∧ a.data ≠ [] then
      match a.data[DISCRIMINATOR_INDEX]? with
      | none => .error .panicked
      | some d =>
        if d = Key.TokenRecord then
          match a.data[TOKEN_STATE_INDEX]? with
          | none => .error .panicked
          | some s =>
            if s = TokenState.Locked then .ok true
            else is_locked program_id rest
        else is_locked program_id rest
    else is_locked program_id rest

/-- Embedding of `has_programmable_metadata`: scans the accounts for an
engine-owned, non-empty account whose discriminator byte is the Asset
Record tag and whose decoded token standard is ProgrammableNonFungible;
a decode failure propagates (Rust `?`). -/
def has_programmable_metadata (program_id : Nat) :
    List AccountInfo → Except Failure Bool
  | [] => .ok false
  | a :: rest =>
    if a.owner = program_id ∧ a.data ≠ [] then
      match a.data[DISCRIMINATOR_INDEX]? with
      | none => .error .panicked
      | some d =>
        if d = Key.MetadataV1 then
          match Metadata.from_account_info a with
          | .error e => .error (.program e)
          | .ok metadata =>
            if metadata.token_standard = some TokenStandard.ProgrammableNonFungible
            then .ok true
            else has_programmable_metadata program_id rest
        else has_programmable_metadata program_id rest
    else has_programmable_metadata program_id rest

/-- The decoded instruction set (argument payloads are irrelevant to the
routing claims and omitted). -/
inductive MetadataInstruction where
  | CreateMetadataAccount
  | UpdateMetadataAccount
  | DeprecatedCreateMasterEdition
  | DeprecatedMintNewEditionFromMasterEditionViaPrintingToken
  | UpdatePrimarySaleHappenedViaToken
  | DeprecatedSetReservationList
  | DeprecatedCreateReservationList
  | SignMetadata
  | DeprecatedMintPrintingTokensViaToken
  | DeprecatedMintPrintingTokens
  | CreateMasterEdition
  | MintNewEditionFromMasterEditionViaToken
  | ConvertMasterEditionV1ToV2
  | MintNewEditionFromMasterEditionViaVaultProxy
  | PuffMetadata
  | UpdateMetadataAccountV2
  | CreateMetadataAccountV2
  | CreateMasterEditionV3
  | VerifyCollection
  | Utilize
  | ApproveUseAuthority
  | RevokeUseAuthority
  | UnverifyCollection
  | ApproveCollectionAuthority
  | RevokeCollectionAuthority
  | SetAndVerifyCollection
  | FreezeDelegatedAccount
  | ThawDelegatedAccount
  | RemoveCreatorVerification
  | BurnNft
  | VerifySizedCollectionItem
  | UnverifySizedCollectionItem
  | SetAndVerifySizedCollectionItem
  | SetCollectionSize
  | SetTokenStandard
  | BubblegumSetCollectionSize
  | BurnEditionNft
  | CreateMetadataAccountV3
  | CreateEscrowAccount
  | CloseEscrowAccount
  | TransferOutOfEscrow
  | Burn
  | Create
  | Mint
  | Delegate
  | Revoke
  | Lock
  | Unlock
  | Migrate
  | Transfer
  | Update
  | Verify
deriving DecidableEq

/-- Embedding of `matches!(instruction, MetadataInstruction::Unlock(_))`. -/
def MetadataInstruction.is_unlock : MetadataInstruction → Bool
  | .Unlock => true
  | _ => false

/-- Whether the instruction belongs to the modern (programmable-aware)
instruction set, i.e. is matched by a named arm of `process_instruction`. -/
def MetadataInstruction.is_modern : MetadataInstruction → Bool
  | .Burn | .Create | .Mint | .Delegate | .Revoke | .Lock | .Unlock
  | .Migrate | .Transfer | .Update | .Verify => true
  | _ => false

/-- The handler a successful routing dispatches to (the handlers themselves
are outside the embedded fragment; routing claims only concern which one is
invoked). -/
inductive Handler where
  | burn
  | create
  | mint
  | delegate
  | revoke
  | lock
  | unlock
  | migrate
  | transfer
  | update
  | verify
  | process_deprecated_create_metadata_accounts
  | process_deprecated_update_metadata_accounts
  | process_create_metadata_accounts_v2
  | process_create_metadata_accounts_v3
  | process_update_metadata_accounts_v2
  | process_update_primary_sale_happened_via_token
  | process_sign_metadata
  | process_remove_creator_verification
  | process_create_master_edition
  | process_mint_new_edition_from_master_edition_via_token
  | process_convert_master_edition_v1_to_v2
  | process_puff_metadata_account
  | verify_collection
  | set_and_verify_collection
  | unverify_collection
  | process_utilize
  | process_approve_use_authority
  | process_revoke_use_authority
  | process_approve_collection_authority
  | process_revoke_collection_authority
  | process_freeze_delegated_account
  | process_thaw_delegated_account
  | process_burn_nft
  | process_burn_edition_nft
  | verify_sized_collection_item
  | set_and_verify_sized_collection_item
  | unverify_sized_collection_item
  | set_collection_size
  | process_set_token_standard
  | bubblegum_set_collection_size
  | process_create_escrow_account
  | process_close_escrow_account
  | process_transfer_out_of_escrow
deriving DecidableEq

/-- Embedding of `process_legacy_instruction`: the legacy dispatch table.
Removed instructions fail with `Removed`; anything not matched by a named
arm falls to `InvalidInstructionData`. -/
def process_legacy_instruction (_program_id : Nat) (_accounts : List AccountInfo) :
    MetadataInstruction → Except Failure Handler
  | .CreateMetadataAccount => .ok .process_deprecated_create_metadata_accounts
  | .UpdateMetadataAccount => .ok .process_deprecated_update_metadata_accounts
  | .CreateMetadataAccountV2 => .ok .process_create_metadata_accounts_v2
  | .CreateMetadataAccountV3 => .ok .process_create_metadata_accounts_v3
  | .UpdateMetadataAccountV2 => .ok .process_update_metadata_accounts_v2
  | .DeprecatedCreateMasterEdition => .error (.program (.metadata .Removed))
  | .DeprecatedMintNewEditionFromMasterEditionViaPrintingToken =>
      .error (.program (.metadata .Removed))
  | .UpdatePrimarySaleHappenedViaToken =>
      .ok .process_update_primary_sale_happened_via_token
  | .DeprecatedSetReservationList => .error (.program (.metadata .Removed))
  | .DeprecatedCreateReservationList => .error (.program (.metadata .Removed))
  | .SignMetadata => .ok .process_sign_metadata
  | .RemoveCreatorVerification => .ok .process_remove_creator_verification
  | .DeprecatedMintPrintingTokensViaToken => .error (.program (.metadata .Removed))
  | .DeprecatedMintPrintingTokens => .error (.program (.metadata .Removed))
  | .CreateMasterEdition => .ok .process_create_master_edition
  | .CreateMasterEditionV3 => .ok .process_create_master_edition
  | .MintNewEditionFromMasterEditionViaToken =>
      .ok .process_mint_new_edition_from_master_edition_via_token
  | .ConvertMasterEditionV1ToV2 => .ok .process_convert_master_edition_v1_to_v2
  | .MintNewEditionFromMasterEditionViaVaultProxy =>
      .error (.program (.metadata .Removed))
  | .PuffMetadata => .ok .process_puff_metadata_account
  | .VerifyCollection => .ok .verify_collection
  | .SetAndVerifyCollection => .ok .set_and_verify_collection
  | .UnverifyCollection => .ok .unverify_collection
  | .Utilize => .ok .process_utilize
  | .ApproveUseAuthority => .ok .process_approve_use_authority
  | .RevokeUseAuthority => .ok .process_revoke_use_authority
  | .ApproveCollectionAuthority => .ok .process_approve_collection_authority
  | .RevokeCollectionAuthority => .ok .process_revoke_collection_authority
  | .FreezeDelegatedAccount => .ok .process_freeze_delegated_account
  | .ThawDelegatedAccount => .ok .process_thaw_delegated_account
  | .BurnNft => .ok .process_burn_nft
  | .BurnEditionNft => .ok .process_burn_edition_nft
  | .VerifySizedCollectionItem => .ok .verify_sized_collection_item
  | .SetAndVerifySizedCollectionItem => .ok .set_and_verify_sized_collection_item
  | .UnverifySizedCollectionItem => .ok .unverify_sized_collection_item
  | .SetCollectionSize => .ok .set_collection_size
  | .SetTokenStandard => .ok .process_set_token_standard
  | .BubblegumSetCollectionSize => .ok .bubblegum_set_collection_size
  | .CreateEscrowAccount => .ok .process_create_escrow_account
  | .CloseEscrowAccount => .ok .process_close_escrow_account
  | .TransferOutOfEscrow => .ok .process_transfer_out_of_escrow
  | _ => .error (.program .invalidInstructionData)

/-- Embedding of `process_instruction` (after instruction decoding): first
the lock guard, then dispatch on the modern instruction set, and for any
other instruction the programmable-metadata check deciding between the
unsupported-instruction rejection and the legacy dispatch table. -/
def process_instruction (program_id : Nat) (accounts : List AccountInfo)
    (instruction : MetadataInstruction) : Except Failure Handler :=
  match is_locked program_id accounts with
  | .error f => .error f
  | .ok locked =>
    if locked && !instruction.is_unlock then
      .error (.program (.metadata .LockedToken))
    else
      match instruction with
      | .Burn => .ok .burn
      | .Create => .ok .create
      | .Mint => .ok .mint
      | .Delegate => .ok .delegate
      | .Revoke => .ok .revoke
      | .Lock => .ok .lock
      | .Unlock => .ok .unlock
      | .Migrate => .ok .migrate
      | .Transfer => .ok .transfer
      | .Update => .ok .update
      | .Verify => .ok .verify
      | i =>
        match has_programmable_metadata program_id accounts with
        | .error f => .error f
        | .ok true => .error (.program (.metadata .InstructionNotSupported))
        | .ok false => process_legacy_instruction program_id accounts i

/-- A typed fact value in a Payload. -/
inductive PayloadType where
  | pubkey (key : Nat)
  | number (n : Nat)
deriving DecidableEq

/-- Modelled from the spec: the auth-rules crate's Payload (not among the
sources) is a mapping from fact name to typed value; insertion overwrites
the entry for an existing key. -/
abbrev Payload := List (String × PayloadType)

/-- Insert a fact, overwriting any existing entry for the same key. -/
def Payload.insert : Payload → String → PayloadType → Payload
  | [], k, v => [(k, v)]
  | (k₁, v₁) :: rest, k, v =>
    if k₁ = k then Payload.insert rest k v
    else (k₁, v₁) :: Payload.insert rest k v

/-- Look a fact up by key. -/
def Payload.find : Payload → String → Option PayloadType
  | [], _ => none
  | (k₁, v) :: rest, k => if k₁ = k then some v else Payload.find rest k

/-- Caller-supplied authorization data: a payload of facts. -/
structure AuthorizationData where
  payload : Payload
deriving DecidableEq

/-- Embedding of `AuthorizationData::new_empty`. -/
def AuthorizationData.new_empty : AuthorizationData := { payload := [] }

/-- The Asset Record's programmable configuration: a reference to the
externally stored rule set. -/
structure ProgrammableConfig where
  rule_set : Nat
deriving DecidableEq

/-- The operation kinds the authorization path distinguishes. -/
inductive Operation where
  | Transfer
  | Delegate
  | Sale
  | MigrateClass
deriving DecidableEq

/-- Modelled from the spec: the operation's string tag handed to the
oracle. -/
def Operation.toStr : Operation → String
  | .Transfer => "Transfer"
  | .Delegate => "Delegate"
  | .Sale => "Sale"
  | .MigrateClass => "MigrateClass"

/-- The fixed payload-key vocabulary. -/
inductive PayloadKey where
  | Target
  | Holder
  | Authority
  | Amount
deriving DecidableEq

/-- Modelled from the spec: the payload key's string form. -/
def PayloadKey.toStr : PayloadKey → String
  | .Target => "Target"
  | .Holder => "Holder"
  | .Authority => "Authority"
  | .Amount => "Amount"

/-- The content of the cross-engine validation call dispatched to the
auth-rules oracle (rule-set account, mint, additional account keys,
operation tag, payload, persist flag). -/
structure ValidateCall where
  rule_set_pda : Nat
  mint : Nat
  additional_rule_accounts : List Nat
  operation : String
  payload : Payload
  update_rule_state : Bool

/-- The external auth-rules oracle, as a parameter: it receives the
validation call and succeeds or fails. -/
abbrev Oracle := ValidateCall → Except ProgramError Unit

/-- Modelled from the spec: `assert_valid_authorization` (assertions
module, not among the sources) verifies that the caller-supplied rule-set
account is present and matches the reference recorded in the programmable
configuration; failing either is `InvalidAuthorizationRules`. -/
def assert_valid_authorization (auth_rules_info : Option AccountInfo)
    (config : ProgrammableConfig) : Except ProgramError Unit :=
  match auth_rules_info with
  | none => .error (.metadata .InvalidAuthorizationRules)
  | some a =>
    if a.key = config.rule_set then .ok ()
    else .error (.metadata .InvalidAuthorizationRules)

/-- Embedding of `validate`: builds the validation call (all builder
fields are set, so instruction construction cannot fail here) and
dispatches it to the oracle, returning the oracle's result unchanged. -/
def validate (oracle : Oracle) (ruleset : AccountInfo) (operation : Operation)
    (mint_info : AccountInfo) (additional_rule_accounts : List AccountInfo)
    (auth_data : AuthorizationData) : Except ProgramError Unit :=
  oracle
    { rule_set_pda := ruleset.key
      mint := mint_info.key
      additional_rule_accounts := additional_rule_accounts.map AccountInfo.key
      operation := operation.toStr
      payload := auth_data.payload
      update_rule_state := false }

/-- Embedding of `AuthRulesValidateParams`. -/
structure AuthRulesValidateParams where
  mint_info : AccountInfo
  target_info : Option AccountInfo
  authority_info : Option AccountInfo
  owner_info : Option AccountInfo
  programmable_config : Option ProgrammableConfig
  amount : Nat
  auth_data : Option AuthorizationData
  auth_rules_info : Option AccountInfo
  operation : Operation

/-- Embedding of `auth_rules_validate`.  With no programmable
configuration it is a no-op; otherwise it checks the rule-set account,
collects the optional target/authority/owner accounts, builds the
operation's payload (only Transfer is supported) and dispatches the
validation call to the oracle. -/
def auth_rules_validate (oracle : Oracle) (params : AuthRulesValidateParams) :
    Except ProgramError Unit :=
  match params.programmable_config with
  | none => .ok ()
  | some config =>
    match assert_valid_authorization params.auth_rules_info config,
          params.auth_rules_info with
    | .error e, _ => .error e
    | .ok _, none =>
      -- dead branch: the assertion above fails when the account is absent
      .error (.metadata .InvalidAuthorizationRules)
    | .ok _, some auth_pda =>
      let auth_data :=
        match params.auth_data with
        | some d => d
        | none => AuthorizationData.new_empty
      let additional_rule_accounts :=
        params.target_info.toList ++ params.authority_info.toList ++
          params.owner_info.toList
      match params.operation with
      | .Transfer =>
        match params.target_info with
        | none => .error (.metadata .InvalidOperation)
        | some target_info =>
          match params.authority_info with
          | none => .error (.metadata .InvalidOperation)
          | some authority_info =>
            let payload :=
              ((auth_data.payload.insert PayloadKey.Amount.toStr
                    (.number params.amount)).insert
                  PayloadKey.Target.toStr (.pubkey target_info.key)).insert
                PayloadKey.Authority.toStr (.pubkey authority_info.key)
            validate oracle auth_pda params.operation params.mint_info
              additional_rule_accounts { payload := payload }
      | _ => .error (.metadata .InvalidOperation)

/-- The payload the Transfer arm builds on top of the caller-supplied
facts. -/
def transfer_payload (base : Payload) (amount target_key authority_key : Nat) :
    Payload :=
  ((base.insert PayloadKey.Amount.toStr (.number amount)).insert
      PayloadKey.Target.toStr (.pubkey target_key)).insert
    PayloadKey.Authority.toStr (.pubkey authority_key)

/-- An operation performed on the external token ledger. -/
inductive LedgerOp where
  | thawAccount (token mint : Nat)
  | transferTokens (source destination amount : Nat)
  | freezeAccount (token mint : Nat)
deriving DecidableEq

/-- The external token ledger, as a parameter: each primitive succeeds (the
mutation happens) or fails (no mutation). -/
abbrev Ledger := LedgerOp → Except ProgramError Unit

/-- The program-derived-address computation, as a parameter: the mint key
determines the expected edition address (the other seed components are
fixed). -/
abbrev Derive := Nat → Nat

/-- Embedding of `TokenTransferParams` (the fields the embedded fragment
reads). -/
structure TokenTransferParams where
  source : AccountInfo
  destination : AccountInfo
  mint : AccountInfo
  amount : Nat
  authority : AccountInfo
  token_program : AccountInfo

/-- Embedding of `thaw`: modelled from the spec for `assert_derivation`
(assertions module, not among the sources), the supplied edition account
must match the expected derived address or the call fails with the
derivation-mismatch error; then the thaw primitive is invoked, its error
propagating (Rust `?`).  The returned list records the ledger mutations
performed. -/
def thaw (derive : Derive) (ledger : Ledger) (mint token edition
    _spl_token_program : AccountInfo) : Except Failure Unit × List LedgerOp :=
  if edition.key = derive mint.key then
    match ledger (.thawAccount token.key mint.key) with
    | .ok _ => (.ok (), [.thawAccount token.key mint.key])
    | .error e => (.error (.program e), [])
  else (.error (.program (.metadata .DerivedKeyInvalid)), [])

/-- Embedding of `freeze`: same shape as `thaw` with the freeze
primitive. -/
def freeze (derive : Derive) (ledger : Ledger) (mint token edition
    _spl_token_program : AccountInfo) : Except Failure Unit × List LedgerOp :=
  if edition.key = derive mint.key then
    match ledger (.freezeAccount token.key mint.key) with
    | .ok _ => (.ok (), [.freezeAccount token.key mint.key])
    | .error e => (.error (.program e), [])
  else (.error (.program (.metadata .DerivedKeyInvalid)), [])

/-- Embedding of `frozen_transfer`: requires the edition account, thaws
the source (error propagating via `?`), performs the balance transfer with
`.unwrap()` — a failure there is a panic, not a returned error — and
freezes the source again.  The returned list records the ledger mutations
performed before the outcome. -/
def frozen_transfer (derive : Derive) (ledger : Ledger)
    (params : TokenTransferParams) (edition_opt_info : Option AccountInfo) :
    Except Failure Unit × List LedgerOp :=
  match edition_opt_info with
  | none => (.error (.program (.metadata .MissingEditionAccount)), [])
  | some master_edition_info =>
    match thaw derive ledger params.mint params.source master_edition_info
        params.token_program with
    | (.error e, trace) => (.error e, trace)
    | (.ok _, trace₁) =>
      let op : LedgerOp :=
        .transferTokens params.source.key params.destination.key params.amount
      match ledger op with
      | .error _ => (.error .panicked, trace₁)
      | .ok _ =>
        let trace₂ := trace₁ ++ [op]
        match freeze derive ledger params.mint params.source
            master_edition_info params.token_program with
        | (.error e, trace₃) => (.error e, trace₂ ++ trace₃)
        | (.ok _, trace₃) => (.ok (), trace₂ ++ trace₃)

/-- The validation call `auth_rules_validate` dispatches for a Transfer
once the rule-set account (`pda`) and the target and authority accounts
are present. -/
def transfer_validate_call (params : AuthRulesValidateParams)
    (pda target authority : AccountInfo) : ValidateCall :=
  { rule_set_pda := pda.key
    mint := params.mint_info.key
    additional_rule_accounts :=
      ((params.target_info.toList ++ params.authority_info.toList ++
        params.owner_info.toList).map AccountInfo.key)
    operation := Operation.toStr .Transfer
    payload :=
      transfer_payload
        (match params.auth_data with
          | some d => d.payload
          | none => []) params.amount target.key authority.key
    update_rule_state := false }

/-- Whether an `Except` result is a success. -/
def exceptIsOk {ε α : Type} : Except ε α → Bool
  | .ok _ => true
  | .error _ => false

/-! ## Helper lemmas -/

/-- On the Transfer path with a valid rule-set account and both mandatory
accounts present, `auth_rules_validate` returns exactly the oracle's
verdict on the constructed validation call. -/
lemma auth_rules_validate_transfer_eq (oracle : Oracle)
    (params : AuthRulesValidateParams) (config : ProgrammableConfig)
    (pda target authority : AccountInfo)
    (hcfg : params.programmable_config = some config)
    (hpda : params.auth_rules_info = some pda)
    (hkey : pda.key = config.rule_set)
    (hop : params.operation = .Transfer)
    (ht : params.target_info = some target)
    (ha : params.authority_info = some authority) :
    auth_rules_validate oracle params =
      oracle (transfer_validate_call params pda target authority) := by
  simp [auth_rules_validate, hcfg, hpda, hkey, hop, ht, ha,
    assert_valid_authorization, validate, transfer_validate_call,
    transfer_payload, AuthorizationData.new_empty]
  cases params.auth_data <;> rfl

/-- Inserting a key makes it retrievable with the inserted value. -/
lemma Payload.find_insert_self (p : Payload) (k : String) (v : PayloadType) :
    (Payload.insert p k v).find k = some v := by
  induction p with
  | nil => simp [Payload.insert, Payload.find]
  | cons e rest ih =>
    obtain ⟨k₁, v₁⟩ := e
    by_cases h : k₁ = k
    · simp [Payload.insert, h, ih]
    · simp [Payload.insert, Payload.find, h, ih]

/-- Inserting one key leaves lookups of other keys unchanged. -/
lemma Payload.find_insert_other (p : Payload) (k k' : String)
    (v : PayloadType) (hne : k' ≠ k) :
    (Payload.insert p k v).find k' = p.find k' := by
  induction p with
  | nil => simp [Payload.insert, Payload.find, Ne.symm hne]
  | cons e rest ih =>
    obtain ⟨k₁, v₁⟩ := e
    by_cases h : k₁ = k
    · subst h
      simp [Payload.insert, Payload.find, Ne.symm hne, ih]
    · simp [Payload.insert, Payload.find, h, ih]

/-- The Transfer payload carries the amount under the Amount key. -/
lemma transfer_payload_find_amount (base : Payload) (amount tk ak : Nat) :
    (transfer_payload base amount tk ak).find PayloadKey.Amount.toStr =
      some (.number amount) := by
  have h1 : PayloadKey.Amount.toStr ≠ PayloadKey.Authority.toStr := by decide
  have h2 : PayloadKey.Amount.toStr ≠ PayloadKey.Target.toStr := by decide
  rw [transfer_payload, Payload.find_insert_other _ _ _ _ h1,
    Payload.find_insert_other _ _ _ _ h2, Payload.find_insert_self]

/-- The Transfer payload carries the destination key under the Target
key. -/
lemma transfer_payload_find_target (base : Payload) (amount tk ak : Nat) :
    (transfer_payload base amount tk ak).find PayloadKey.Target.toStr =
      some (.pubkey tk) := by
  have h1 : PayloadKey.Target.toStr ≠ PayloadKey.Authority.toStr := by decide
  rw [transfer_payload, Payload.find_insert_other _ _ _ _ h1,
    Payload.find_insert_self]

/-- The Transfer payload carries the initiator key under the Authority
key. -/
lemma transfer_payload_find_authority (base : Payload) (amount tk ak : Nat) :
    (transfer_payload base amount tk ak).find PayloadKey.Authority.toStr =
      some (.pubkey ak) := by
  rw [transfer_payload, Payload.find_insert_self]

/-- A non-empty data buffer has a discriminator byte. -/
lemma exists_discriminator (l : List Nat) (h : l ≠ []) :
    ∃ d, l[DISCRIMINATOR_INDEX]? = some d := by
  cases l with
  | nil => exact absurd rfl h
  | cons x xs => exact ⟨x, by simp [DISCRIMINATOR_INDEX]⟩

/-- If every engine-owned, non-empty, State-Record-tagged account has data
long enough to contain the lock-state byte, the scan never reaches the
out-of-bounds branch. -/
lemma is_locked_total_of_wf (pid : Nat) :
    ∀ accounts : List AccountInfo,
      (∀ a ∈ accounts, a.owner = pid → a.data ≠ [] →
          a.data[DISCRIMINATOR_INDEX]? = some Key.TokenRecord →
          TOKEN_STATE_INDEX < a.data.length) →
      ∃ b, is_locked pid accounts = .ok b := by
  intro accounts
  induction accounts with
  | nil => exact fun _ => ⟨false, rfl⟩
  | cons a rest ih =>
    intro hwf
    have hrest := fun c hc => hwf c (List.mem_cons_of_mem a hc)
    by_cases hcond : a.owner = pid ∧ a.data ≠ []
    · obtain ⟨d, hd⟩ := exists_discriminator a.data hcond.2
      by_cases hdk : d = Key.TokenRecord
      · have hlt := hwf a (List.mem_cons_self a rest) hcond.1 hcond.2
          (by rw [hd, hdk])
        obtain ⟨s, hs⟩ : ∃ s, a.data[TOKEN_STATE_INDEX]? = some s :=
          ⟨a.data[TOKEN_STATE_INDEX], List.getElem?_eq_getElem hlt⟩
        by_cases hsl : s = TokenState.Locked
        · exact ⟨true, by simp [is_locked, hcond, hd, hdk, hs, hsl]⟩
        · obtain ⟨b, hb⟩ := ih hrest
          exact ⟨b, by simp [is_locked, hcond, hd, hdk, hs, hsl, hb]⟩
      · obtain ⟨b, hb⟩ := ih hrest
        exact ⟨b, by simp [is_locked, hcond, hd, hdk, hb]⟩
    · obtain ⟨b, hb⟩ := ih hrest
      exact ⟨b, by simp [is_locked, hcond, hb]⟩

/-- If one of the accounts is an engine-owned, non-empty, State-Record
account in the Locked state, and no State-Record-tagged account is too
short for the state-byte read, the scan reports the lock. -/
lemma is_locked_true_of_mem (pid : Nat) :
    ∀ accounts : List AccountInfo,
      (∀ c ∈ accounts, c.owner = pid → c.data ≠ [] →
          c.data[DISCRIMINATOR_INDEX]? = some Key.TokenRecord →
          TOKEN_STATE_INDEX < c.data.length) →
      ∀ a ∈ accounts, a.owner = pid → a.data ≠ [] →
        a.data[DISCRIMINATOR_INDEX]? = some Key.TokenRecord →
        a.data[TOKEN_STATE_INDEX]? = some TokenState.Locked →
        is_locked pid accounts = .ok true := by
  intro accounts
  induction accounts with
  | nil => intro _ a ha; cases ha
  | cons b rest ih =>
    intro hwf a ha hown hne htag hlock
    have hrest := fun c hc => hwf c (List.mem_cons_of_mem b hc)
    rcases List.mem_cons.mp ha with rfl | hmem
    · simp [is_locked, hown, hne, htag, hlock]
    · by_cases hcond : b.owner = pid ∧ b.data ≠ []
      · obtain ⟨d, hd⟩ := exists_discriminator b.data hcond.2
        by_cases hdk : d = Key.TokenRecord
        · have hlt := hwf b (List.mem_cons_self b rest) hcond.1 hcond.2
            (by rw [hd, hdk])
          obtain ⟨s, hs⟩ : ∃ s, b.data[TOKEN_STATE_INDEX]? = some s :=
            ⟨b.data[TOKEN_STATE_INDEX], List.getElem?_eq_getElem hlt⟩
          by_cases hsl : s = TokenState.Locked
          · simp [is_locked, hcond, hd, hdk, hs, hsl]
          · have hr := ih hrest a hmem hown hne htag hlock
            simp [is_locked, hcond, hd, hdk, hs, hsl, hr]
        · have hr := ih hrest a hmem hown hne htag hlock
          simp [is_locked, hcond, hd, hdk, hr]
      · have hr := ih hrest a hmem hown hne htag hlock
        simp [is_locked, hcond, hr]

/-- An engine-owned, non-empty account carrying the Asset Record
discriminator. -/
abbrev metadata_tagged (pid : Nat) (a : AccountInfo) : Prop :=
  a.owner = pid ∧ a.data ≠ [] ∧
    a.data[DISCRIMINATOR_INDEX]? = some Key.MetadataV1

/-- An engine-owned, non-empty Asset Record that decodes with the
programmable token standard. -/
abbrev pnft_account (pid : Nat) (a : AccountInfo) : Prop :=
  a.owner = pid ∧ a.data ≠ [] ∧
    a.data[DISCRIMINATOR_INDEX]? = some Key.MetadataV1 ∧
    Metadata.from_account_info a =
      .ok { token_standard := some .ProgrammableNonFungible }

/-- When every scanned Asset-Record-tagged account decodes successfully,
the classifier returns true exactly when some account is a programmable
Asset Record. -/
lemma hpm_true_iff (pid : Nat) :
    ∀ accounts : List AccountInfo,
      (∀ a ∈ accounts, metadata_tagged pid a →
        exceptIsOk (Metadata.from_account_info a) = true) →
      (has_programmable_metadata pid accounts = .ok true ↔
        ∃ a ∈ accounts, pnft_account pid a) := by
  intro accounts
  induction accounts with
  | nil => intro _; simp [has_programmable_metadata]
  | cons a rest ih =>
    intro hwf
    have hrest := fun c hc => hwf c (List.mem_cons_of_mem a hc)
    by_cases hcond : a.owner = pid ∧ a.data ≠ []
    · obtain ⟨d, hd⟩ := exists_discriminator a.data hcond.2
      by_cases hdk : d = Key.MetadataV1
      · have htag : a.data[DISCRIMINATOR_INDEX]? = some Key.MetadataV1 := by
          rw [hd, hdk]
        have hok := hwf a (List.mem_cons_self a rest) ⟨hcond.1, hcond.2, htag⟩
        obtain ⟨m, hm⟩ : ∃ m, Metadata.from_account_info a = .ok m := by
          cases hfa : Metadata.from_account_info a with
          | ok m => exact ⟨m, rfl⟩
          | error e => rw [hfa] at hok; simp [exceptIsOk] at hok
        by_cases hts :
            m.token_standard = some TokenStandard.ProgrammableNonFungible
        · have hmP : m = { token_standard := some .ProgrammableNonFungible } := by
            cases m; simpa using hts
          have hres : has_programmable_metadata pid (a :: rest) = .ok true := by
            simp [has_programmable_metadata, hcond, hd, hdk, hm, hts]
          rw [hres]
          constructor
          · intro _
            exact ⟨a, List.mem_cons_self a rest, hcond.1, hcond.2, htag,
              by rw [hm, hmP]⟩
          · intro _; rfl
        · have hres : has_programmable_metadata pid (a :: rest) =
              has_programmable_metadata pid rest := by
            simp [has_programmable_metadata, hcond, hd, hdk, hm, hts]
          rw [hres, ih hrest]
          constructor
          · rintro ⟨c, hc, hcp⟩
            exact ⟨c, List.mem_cons_of_mem a hc, hcp⟩
          · rintro ⟨c, hc, hcp⟩
            rcases List.mem_cons.mp hc with rfl | hc2
            · exfalso
              have h4 := hcp.2.2.2
              rw [hm] at h4
              exact hts (by rw [Except.ok.inj h4])
            · exact ⟨c, hc2, hcp⟩
      · have hres : has_programmable_metadata pid (a :: rest) =
            has_programmable_metadata pid rest := by
          simp [has_programmable_metadata, hcond, hd, hdk]
        rw [hres, ih hrest]
        constructor
        · rintro ⟨c, hc, hcp⟩
          exact ⟨c, List.mem_cons_of_mem a hc, hcp⟩
        · rintro ⟨c, hc, hcp⟩
          rcases List.mem_cons.mp hc with rfl | hc2
          · exfalso
            have h3 := hcp.2.2.1
            rw [hd] at h3
            exact hdk (Option.some.inj h3)
          · exact ⟨c, hc2, hcp⟩
    · have hres : has_programmable_metadata pid (a :: rest) =
          has_programmable_metadata pid rest := by
        simp [has_programmable_metadata, hcond]
      rw [hres, ih hrest]
      constructor
      · rintro ⟨c, hc, hcp⟩
        exact ⟨c, List.mem_cons_of_mem a hc, hcp⟩
      · rintro ⟨c, hc, hcp⟩
        rcases List.mem_cons.mp hc with rfl | hc2
        · exact absurd ⟨hcp.1, hcp.2.1⟩ hcond
        · exact ⟨c, hc2, hcp⟩

/-- When some scanned Asset-Record-tagged account fails to decode and no
account classifies the list as programmable, the classifier propagates a
failure — it never defaults to false. -/
lemma hpm_error_of_bad (pid : Nat) :
    ∀ accounts : List AccountInfo,
      (∃ a ∈ accounts, metadata_tagged pid a ∧
        exceptIsOk (Metadata.from_account_info a) = false) →
      (¬ ∃ a ∈ accounts, pnft_account pid a) →
      ∃ e, has_programmable_metadata pid accounts = .error (.program e) := by
  intro accounts
  induction accounts with
  | nil => rintro ⟨c, hc, _⟩ _; cases hc
  | cons a rest ih =>
    rintro ⟨c, hc, hctag, hcbad⟩ hgood
    have hgood_rest : ¬ ∃ b ∈ rest, pnft_account pid b := by
      rintro ⟨b, hb, hbp⟩
      exact hgood ⟨b, List.mem_cons_of_mem a hb, hbp⟩
    by_cases hcond : a.owner = pid ∧ a.data ≠ []
    · obtain ⟨d, hd⟩ := exists_discriminator a.data hcond.2
      by_cases hdk : d = Key.MetadataV1
      · cases hfa : Metadata.from_account_info a with
        | error e =>
          exact ⟨e, by simp [has_programmable_metadata, hcond, hd, hdk, hfa]⟩
        | ok m =>
          by_cases hts :
              m.token_standard = some TokenStandard.ProgrammableNonFungible
          · exfalso
            apply hgood
            have htag : a.data[DISCRIMINATOR_INDEX]? = some Key.MetadataV1 := by
              rw [hd, hdk]
            have hmP : m = { token_standard := some .ProgrammableNonFungible } := by
              cases m; simpa using hts
            exact ⟨a, List.mem_cons_self a rest, hcond.1, hcond.2, htag,
              by rw [hfa, hmP]⟩
          · have hcrest : c ∈ rest := by
              rcases List.mem_cons.mp hc with rfl | h
              · exfalso; rw [hfa] at hcbad; simp [exceptIsOk] at hcbad
              · exact h
            obtain ⟨e, he⟩ := ih ⟨c, hcrest, hctag, hcbad⟩ hgood_rest
            exact ⟨e,
              by simp [has_programmable_metadata, hcond, hd, hdk, hfa, hts, he]⟩
      · have hcrest : c ∈ rest := by
          rcases List.mem_cons.mp hc with rfl | h
          · exfalso
            have h3 := hctag.2.2
            rw [hd] at h3
            exact hdk (Option.some.inj h3)
          · exact h
        obtain ⟨e, he⟩ := ih ⟨c, hcrest, hctag, hcbad⟩ hgood_rest
        exact ⟨e, by simp [has_programmable_metadata, hcond, hd, hdk, he]⟩
    · have hcrest : c ∈ rest := by
        rcases List.mem_cons.mp hc with rfl | h
        · exact absurd ⟨hctag.1, hctag.2.1⟩ hcond
        · exact h
      obtain ⟨e, he⟩ := ih ⟨c, hcrest, hctag, hcbad⟩ hgood_rest
      exact ⟨e, by simp [has_programmable_metadata, hcond, he]⟩

/-! ## Claim theorems -/

/-- C1 (amended): with a Locked State Record among the accounts and a
non-Unlock instruction, routing fails with the locked-asset error before
any handler dispatch — provided no engine-owned, non-empty,
State-Record-tagged account is too short for the lock-state byte read
(such an account makes the scan abort with an out-of-bounds panic
instead; see the counterexample). -/
theorem C1_locked_guard_amended (pid : Nat) (accounts : List AccountInfo)
    (i : MetadataInstruction)
    (hwf : ∀ c ∈ accounts, c.owner = pid → c.data ≠ [] →
      c.data[DISCRIMINATOR_INDEX]? = some Key.TokenRecord →
      TOKEN_STATE_INDEX < c.data.length)
    (a : AccountInfo) (ha : a ∈ accounts) (hown : a.owner = pid)
    (hne : a.data ≠ [])
    (htag : a.data[DISCRIMINATOR_INDEX]? = some Key.TokenRecord)
    (hlock : a.data[TOKEN_STATE_INDEX]? = some TokenState.Locked)
    (hni : i.is_unlock = false) :
    process_instruction pid accounts i =
      .error (.program (.metadata .LockedToken)) := by
  have h := is_locked_true_of_mem pid accounts hwf a ha hown hne htag hlock
  simp [process_instruction, h, hni]

/-- C1 witness: a Locked State Record blocks a Transfer instruction. -/
theorem C1_witness :
    process_instruction 7 [⟨1, 7, [11, 0, 1]⟩] .Transfer =
      .error (.program (.metadata .LockedToken)) :=
  C1_locked_guard_amended 7 [⟨1, 7, [11, 0, 1]⟩] .Transfer (by decide)
    ⟨1, 7, [11, 0, 1]⟩ (by decide) (by decide) (by decide) (by decide)
    (by decide) (by decide)

/-- C1 counterexample: the account list holds a Locked State Record and
the instruction is not Unlock, yet routing aborts with a panic (a
State-Record-tagged account preceding it is too short for the state-byte
read), not with the locked-asset error. -/
theorem C1_counterexample :
    (∃ a ∈ ([⟨1, 7, [11]⟩, ⟨2, 7, [11, 0, 1]⟩] : List AccountInfo),
        a.owner = 7 ∧ a.data ≠ [] ∧
        a.data[DISCRIMINATOR_INDEX]? = some Key.TokenRecord ∧
        a.data[TOKEN_STATE_INDEX]? = some TokenState.Locked) ∧
    MetadataInstruction.is_unlock .Transfer = false ∧
    process_instruction 7 [⟨1, 7, [11]⟩, ⟨2, 7, [11, 0, 1]⟩] .Transfer =
      .error .panicked ∧
    Failure.panicked ≠ .program (.metadata .LockedToken) := by decide

/-- C10 (amended): the lock scan's byte reads stay in bounds provided
every engine-owned, non-empty, State-Record-tagged account has data
longer than `TOKEN_STATE_INDEX`; without that proviso the out-of-bounds
branch is reachable (see the counterexample). -/
theorem C10_is_locked_total_amended (pid : Nat) (accounts : List AccountInfo)
    (hwf : ∀ a ∈ accounts, a.owner = pid → a.data ≠ [] →
      a.data[DISCRIMINATOR_INDEX]? = some Key.TokenRecord →
      TOKEN_STATE_INDEX < a.data.length) :
    ∃ b, is_locked pid accounts = .ok b :=
  is_locked_total_of_wf pid accounts hwf

/-- C10 witness: on a well-formed list the scan returns a boolean. -/
theorem C10_witness :
    ∃ b, is_locked 7 [⟨1, 7, [11, 0, 1]⟩, ⟨2, 9, [11]⟩] = .ok b :=
  C10_is_locked_total_amended 7 [⟨1, 7, [11, 0, 1]⟩, ⟨2, 9, [11]⟩] (by decide)

/-- C10 counterexample: an engine-owned account with non-empty data
shorter than `TOKEN_STATE_INDEX + 1` bytes and the State Record
discriminator drives the scan into the out-of-bounds branch. -/
theorem C10_counterexample :
    (⟨1, 7, [11]⟩ : AccountInfo).owner = 7 ∧
    (⟨1, 7, [11]⟩ : AccountInfo).data ≠ [] ∧
    (⟨1, 7, [11]⟩ : AccountInfo).data.length < TOKEN_STATE_INDEX + 1 ∧
    is_locked 7 [⟨1, 7, [11]⟩] = .error .panicked := by decide

/-- C8 (amended): the lock check reads only the single state byte.  A
State-Record-tagged account aborts routing (fails closed) only when its
data is too short to contain the state byte; any state byte other than
Locked — malformed or not — is treated as not locked and routing proceeds
to dispatch. -/
theorem C8_lock_byte_check_amended :
    (∀ (pid : Nat) (a : AccountInfo), a.owner = pid → a.data ≠ [] →
        a.data[DISCRIMINATOR_INDEX]? = some Key.TokenRecord →
        a.data.length ≤ TOKEN_STATE_INDEX →
        is_locked pid [a] = .error .panicked) ∧
    (∀ (pid : Nat) (a : AccountInfo) (s : Nat), a.owner = pid →
        a.data[DISCRIMINATOR_INDEX]? = some Key.TokenRecord →
        a.data[TOKEN_STATE_INDEX]? = some s → s ≠ TokenState.Locked →
        is_locked pid [a] = .ok false ∧
        process_instruction pid [a] .Update = .ok .update) := by
  constructor
  · intro pid a hown hne htag hlen
    have hnone : a.data[TOKEN_STATE_INDEX]? = none :=
      List.getElem?_eq_none hlen
    simp [is_locked, hown, hne, htag, hnone]
  · intro pid a s hown htag hs hsl
    have hne : a.data ≠ [] := by
      intro h
      rw [h] at htag
      simp [DISCRIMINATOR_INDEX] at htag
    have hl : is_locked pid [a] = .ok false := by
      simp [is_locked, hown, hne, htag, hs, hsl]
    exact ⟨hl, by simp [process_instruction, hl]⟩

/-- C8 witness: a too-short State Record panics; a State Record with a
byte that is no valid lock state is treated as unlocked and Update is
dispatched. -/
theorem C8_witness :
    is_locked 7 [⟨1, 7, [11]⟩] = .error .panicked ∧
    (is_locked 7 [⟨1, 7, [11, 0, 99]⟩] = .ok false ∧
      process_instruction 7 [⟨1, 7, [11, 0, 99]⟩] .Update = .ok .update) :=
  ⟨C8_lock_byte_check_amended.1 7 ⟨1, 7, [11]⟩ (by decide) (by decide)
      (by decide) (by decide),
    C8_lock_byte_check_amended.2 7 ⟨1, 7, [11, 0, 99]⟩ 99 (by decide)
      (by decide) (by decide) (by decide)⟩

/-- C8 counterexample: an engine-owned, non-empty account carries the
State Record tag with a state byte (99) that is no valid lock state —
malformed remaining bytes — yet routing does not propagate a failure: it
treats the record as not locked and dispatches the handler. -/
theorem C8_counterexample :
    (⟨1, 7, [11, 0, 99]⟩ : AccountInfo).data[DISCRIMINATOR_INDEX]? =
      some Key.TokenRecord ∧
    (⟨1, 7, [11, 0, 99]⟩ : AccountInfo).data[TOKEN_STATE_INDEX]? =
      some 99 ∧
    (99 ≠ TokenState.Unlocked ∧ 99 ≠ TokenState.Locked ∧
      99 ≠ TokenState.Listed) ∧
    process_instruction 7 [⟨1, 7, [11, 0, 99]⟩] .Update = .ok .update := by
  decide

/-- C5: with no programmable configuration, authorization validation
succeeds as a no-op, for every oracle, operation, amount, caller payload
and optional-account combination. -/
theorem C5_no_config_trivially_granted (oracle : Oracle)
    (mint_info : AccountInfo)
    (target_info authority_info owner_info auth_rules_info :
      Option AccountInfo)
    (amount : Nat) (auth_data : Option AuthorizationData)
    (operation : Operation) :
    auth_rules_validate oracle
      ⟨mint_info, target_info, authority_info, owner_info, none, amount,
        auth_data, auth_rules_info, operation⟩ = .ok () := rfl

/-- C7: a missing edition account fails with `MissingEditionAccount`
before any ledger mutation, and an edition account that does not match
the derived address fails with the derivation-mismatch error with no
ledger mutation. -/
theorem C7_edition_checks (derive : Derive) (ledger : Ledger)
    (params : TokenTransferParams) :
    frozen_transfer derive ledger params none =
      (.error (.program (.metadata .MissingEditionAccount)), []) ∧
    (∀ edition : AccountInfo, edition.key ≠ derive params.mint.key →
      frozen_transfer derive ledger params (some edition) =
        (.error (.program (.metadata .DerivedKeyInvalid)), [])) := by
  refine ⟨rfl, ?_⟩
  intro edition hne
  simp [frozen_transfer, thaw, hne]

/-- C7 witness: both failure modes at a concrete input. -/
theorem C7_witness :
    frozen_transfer (fun _ => 99) (fun _ => .ok ())
        ⟨⟨40, 0, []⟩, ⟨41, 0, []⟩, ⟨42, 0, []⟩, 10, ⟨43, 0, []⟩, ⟨44, 0, []⟩⟩
        none =
      (.error (.program (.metadata .MissingEditionAccount)), []) ∧
    frozen_transfer (fun _ => 99) (fun _ => .ok ())
        ⟨⟨40, 0, []⟩, ⟨41, 0, []⟩, ⟨42, 0, []⟩, 10, ⟨43, 0, []⟩, ⟨44, 0, []⟩⟩
        (some ⟨98, 0, []⟩) =
      (.error (.program (.metadata .DerivedKeyInvalid)), []) :=
  ⟨(C7_edition_checks (fun _ => 99) (fun _ => .ok ())
      ⟨⟨40, 0, []⟩, ⟨41, 0, []⟩, ⟨42, 0, []⟩, 10, ⟨43, 0, []⟩,
        ⟨44, 0, []⟩⟩).1,
    (C7_edition_checks (fun _ => 99) (fun _ => .ok ())
      ⟨⟨40, 0, []⟩, ⟨41, 0, []⟩, ⟨42, 0, []⟩, 10, ⟨43, 0, []⟩,
        ⟨44, 0, []⟩⟩).2 ⟨98, 0, []⟩ (by decide)⟩

/-- C9: when the thaw succeeds and the balance-transfer primitive fails,
`frozen_transfer` aborts through the `.unwrap()` panic, not by returning
a typed error code — evaluated at a concrete failing input. -/
theorem C9_transfer_failure_panics :
    frozen_transfer (fun _ => 99)
      (fun op => match op with
        | .transferTokens _ _ _ => .error (.custom 3)
        | _ => .ok ())
      ⟨⟨40, 0, []⟩, ⟨41, 0, []⟩, ⟨42, 0, []⟩, 10, ⟨43, 0, []⟩, ⟨44, 0, []⟩⟩
      (some ⟨99, 0, []⟩) =
    (.error .panicked, [.thawAccount 40 42]) := by decide

/-- C4 (amended): a failure of the dispatched oracle validation call
propagates from `auth_rules_validate` unchanged, as the oracle's own
error; only a failure to construct the validation instruction is mapped
to `InvalidAuthorizationRules`, and with all builder fields set that
construction cannot fail. -/
theorem C4_oracle_error_propagates (oracle : Oracle)
    (params : AuthRulesValidateParams) (config : ProgrammableConfig)
    (pda target authority : AccountInfo) (e : ProgramError)
    (hcfg : params.programmable_config = some config)
    (hpda : params.auth_rules_info = some pda)
    (hkey : pda.key = config.rule_set)
    (hop : params.operation = .Transfer)
    (ht : params.target_info = some target)
    (ha : params.authority_info = some authority)
    (horacle : oracle (transfer_validate_call params pda target authority) =
      .error e) :
    auth_rules_validate oracle params = .error e := by
  rw [auth_rules_validate_transfer_eq oracle params config pda target
    authority hcfg hpda hkey hop ht ha, horacle]

/-- C4 witness: an oracle failing with custom code 7 surfaces as custom
code 7. -/
theorem C4_witness :
    auth_rules_validate (fun _ => .error (.custom 7))
        ⟨⟨30, 0, []⟩, some ⟨31, 0, []⟩, some ⟨32, 0, []⟩, none, some ⟨5⟩, 10,
          none, some ⟨5, 0, []⟩, .Transfer⟩ = .error (.custom 7) :=
  C4_oracle_error_propagates (fun _ => .error (.custom 7))
    ⟨⟨30, 0, []⟩, some ⟨31, 0, []⟩, some ⟨32, 0, []⟩, none, some ⟨5⟩, 10,
      none, some ⟨5, 0, []⟩, .Transfer⟩ ⟨5⟩ ⟨5, 0, []⟩ ⟨31, 0, []⟩
    ⟨32, 0, []⟩ (.custom 7) rfl rfl rfl rfl rfl rfl rfl

/-- C4 counterexample: the oracle call fails with its own error (custom
code 7) and `auth_rules_validate` returns that error, not
`InvalidAuthorizationRules`. -/
theorem C4_counterexample :
    auth_rules_validate (fun _ => .error (.custom 7))
        ⟨⟨30, 0, []⟩, some ⟨31, 0, []⟩, some ⟨32, 0, []⟩, none, some ⟨5⟩, 10,
          none, some ⟨5, 0, []⟩, .Transfer⟩ = .error (.custom 7) ∧
    ProgramError.custom 7 ≠ .metadata .InvalidAuthorizationRules := by decide

/-- C3 (amended): on the Transfer path with a matching rule-set account,
a missing target or authority account fails with `InvalidOperation`; with
both present the Payload handed to the oracle has its Amount, Target and
Authority entries set to the supplied amount, destination key and
initiator key — exactly these three entries when no caller-supplied
authorization data is given (a caller payload keeps its other entries,
with these three overridden). -/
theorem C3_transfer_validation_amended (oracle : Oracle)
    (params : AuthRulesValidateParams) (config : ProgrammableConfig)
    (pda : AccountInfo)
    (hcfg : params.programmable_config = some config)
    (hpda : params.auth_rules_info = some pda)
    (hkey : pda.key = config.rule_set)
    (hop : params.operation = .Transfer) :
    (params.target_info = none ∨ params.authority_info = none →
      auth_rules_validate oracle params =
        .error (.metadata .InvalidOperation)) ∧
    (∀ target authority : AccountInfo, params.target_info = some target →
      params.authority_info = some authority →
      auth_rules_validate oracle params =
        oracle (transfer_validate_call params pda target authority) ∧
      (transfer_validate_call params pda target authority).payload.find
          PayloadKey.Amount.toStr = some (.number params.amount) ∧
      (transfer_validate_call params pda target authority).payload.find
          PayloadKey.Target.toStr = some (.pubkey target.key) ∧
      (transfer_validate_call params pda target authority).payload.find
          PayloadKey.Authority.toStr = some (.pubkey authority.key) ∧
      (params.auth_data = none →
        (transfer_validate_call params pda target authority).payload =
          [(PayloadKey.Amount.toStr, .number params.amount),
            (PayloadKey.Target.toStr, .pubkey target.key),
            (PayloadKey.Authority.toStr, .pubkey authority.key)])) := by
  constructor
  · intro hmiss
    rcases hmiss with hT | hA
    · simp [auth_rules_validate, hcfg, hpda, hkey, hop, hT,
        assert_valid_authorization]
    · cases hT : params.target_info with
      | none =>
        simp [auth_rules_validate, hcfg, hpda, hkey, hop, hT,
          assert_valid_authorization]
      | some t =>
        simp [auth_rules_validate, hcfg, hpda, hkey, hop, hT, hA,
          assert_valid_authorization]
  · intro target authority ht ha
    refine ⟨auth_rules_validate_transfer_eq oracle params config pda target
        authority hcfg hpda hkey hop ht ha, ?_, ?_, ?_, ?_⟩
    · simpa [transfer_validate_call] using
        transfer_payload_find_amount _ params.amount target.key authority.key
    · simpa [transfer_validate_call] using
        transfer_payload_find_target _ params.amount target.key authority.key
    · simpa [transfer_validate_call] using
        transfer_payload_find_authority _ params.amount target.key
          authority.key
    · intro hnone
      simp [transfer_validate_call, hnone, transfer_payload, Payload.insert,
        PayloadKey.toStr]

/-- C3 witness: a missing target account fails with `InvalidOperation`. -/
theorem C3_witness :
    auth_rules_validate (fun _ => .ok ())
        ⟨⟨30, 0, []⟩, none, some ⟨32, 0, []⟩, none, some ⟨5⟩, 10, none,
          some ⟨5, 0, []⟩, .Transfer⟩ =
      .error (.metadata .InvalidOperation) :=
  (C3_transfer_validation_amended (fun _ => .ok ())
      ⟨⟨30, 0, []⟩, none, some ⟨32, 0, []⟩, none, some ⟨5⟩, 10, none,
        some ⟨5, 0, []⟩, .Transfer⟩ ⟨5⟩ ⟨5, 0, []⟩ rfl rfl rfl rfl).1
    (Or.inl rfl)

/-- C3 counterexample: with caller-supplied authorization data holding a
Holder entry, the Payload handed to the oracle contains a fourth key
besides Amount, Target, Authority (observed by an oracle that rejects
whenever a Holder entry is present); and with a rule-set account that
does not match the configuration, a missing target fails with
`InvalidAuthorizationRules`, not `InvalidOperation`. -/
theorem C3_counterexample :
    auth_rules_validate
        (fun c => if c.payload.find "Holder" = none then .ok ()
          else .error (.custom 1))
        ⟨⟨30, 0, []⟩, some ⟨31, 0, []⟩, some ⟨32, 0, []⟩, none, some ⟨5⟩, 10,
          some ⟨[("Holder", .pubkey 77)]⟩, some ⟨5, 0, []⟩, .Transfer⟩ =
      .error (.custom 1) ∧
    auth_rules_validate (fun _ => .ok ())
        ⟨⟨30, 0, []⟩, none, some ⟨32, 0, []⟩, none, some ⟨5⟩, 10, none,
          some ⟨6, 0, []⟩, .Transfer⟩ =
      .error (.metadata .InvalidAuthorizationRules) ∧
    ProgramError.metadata .InvalidAuthorizationRules ≠
      .metadata .InvalidOperation := by decide

/-- C2 (amended): when every engine-owned, non-empty, Asset-Record-tagged
account decodes successfully, `has_programmable_metadata` returns true
iff some account is a programmable Asset Record; and when some tagged
account fails to decode and none classifies the list as programmable,
the scan propagates a deserialization failure instead of returning
false.  (The unamended iff fails when a malformed record precedes a
programmable one — see the counterexample.) -/
theorem C2_classifier_amended (pid : Nat) (accounts : List AccountInfo) :
    ((∀ a ∈ accounts, metadata_tagged pid a →
        exceptIsOk (Metadata.from_account_info a) = true) →
      (has_programmable_metadata pid accounts = .ok true ↔
        ∃ a ∈ accounts, pnft_account pid a)) ∧
    ((∃ a ∈ accounts, metadata_tagged pid a ∧
        exceptIsOk (Metadata.from_account_info a) = false) →
      (¬ ∃ a ∈ accounts, pnft_account pid a) →
      ∃ e, has_programmable_metadata pid accounts = .error (.program e)) :=
  ⟨hpm_true_iff pid accounts, hpm_error_of_bad pid accounts⟩

/-- C2 witness: the iff on a clean list and the propagated failure on a
malformed one. -/
theorem C2_witness :
    (has_programmable_metadata 7 [⟨1, 9, [4, 5]⟩, ⟨2, 7, [4, 1, 4]⟩] =
        .ok true ↔
      ∃ a ∈ ([⟨1, 9, [4, 5]⟩, ⟨2, 7, [4, 1, 4]⟩] : List AccountInfo),
        pnft_account 7 a) ∧
    (∃ e, has_programmable_metadata 7 [⟨1, 7, [4, 5]⟩] =
        .error (.program e)) :=
  ⟨(C2_classifier_amended 7 [⟨1, 9, [4, 5]⟩, ⟨2, 7, [4, 1, 4]⟩]).1
      (by decide),
    (C2_classifier_amended 7 [⟨1, 7, [4, 5]⟩]).2 (by decide) (by decide)⟩

/-- C2 counterexample: the list contains an account that is owned,
non-empty, Asset-Record-tagged and decodes to the programmable standard,
yet the function does not return true — a malformed tagged record earlier
in the list makes it propagate a failure instead. -/
theorem C2_counterexample :
    has_programmable_metadata 7 [⟨1, 7, [4, 5]⟩, ⟨2, 7, [4, 1, 4]⟩] =
      .error (.program .borshIo) ∧
    (∃ a ∈ ([⟨1, 7, [4, 5]⟩, ⟨2, 7, [4, 1, 4]⟩] : List AccountInfo),
      pnft_account 7 a) ∧
    (Except.error (.program ProgramError.borshIo) : Except Failure Bool) ≠
      .ok true := by decide

/-- C6 (amended): for an instruction outside the modern set, provided the
lock guard finds no locked token: a programmable classification rejects
with the unsupported-instruction error, a negative classification
forwards to the legacy dispatch table, and a classification failure
(malformed asset record) propagates instead.  (Without the provisos the
claim fails — see the counterexample.) -/
theorem C6_legacy_gate_amended (pid : Nat) (accounts : List AccountInfo)
    (i : MetadataInstruction) (hmod : i.is_modern = false)
    (hlock : is_locked pid accounts = .ok false) :
    (has_programmable_metadata pid accounts = .ok true →
      process_instruction pid accounts i =
        .error (.program (.metadata .InstructionNotSupported))) ∧
    (has_programmable_metadata pid accounts = .ok false →
      process_instruction pid accounts i =
        process_legacy_instruction pid accounts i) ∧
    (∀ f, has_programmable_metadata pid accounts = .error f →
      process_instruction pid accounts i = .error f) := by
  refine ⟨?_, ?_, ?_⟩
  · intro h
    cases i <;> simp_all [process_instruction, MetadataInstruction.is_modern,
      MetadataInstruction.is_unlock]
  · intro h
    cases i <;> simp_all [process_instruction, MetadataInstruction.is_modern,
      MetadataInstruction.is_unlock, process_legacy_instruction]
  · intro f h
    cases i <;> simp_all [process_instruction, MetadataInstruction.is_modern,
      MetadataInstruction.is_unlock]

/-- C6 witness: rejection with a programmable record present, and legacy
forwarding without one. -/
theorem C6_witness :
    process_instruction 7 [⟨2, 7, [4, 1, 4]⟩] .PuffMetadata =
      .error (.program (.metadata .InstructionNotSupported)) ∧
    process_instruction 7 [⟨3, 9, [4, 1, 4]⟩] .PuffMetadata =
      process_legacy_instruction 7 [⟨3, 9, [4, 1, 4]⟩] .PuffMetadata :=
  ⟨(C6_legacy_gate_amended 7 [⟨2, 7, [4, 1, 4]⟩] .PuffMetadata (by decide)
        (by decide)).1 (by decide),
    ((C6_legacy_gate_amended 7 [⟨3, 9, [4, 1, 4]⟩] .PuffMetadata (by decide)
        (by decide)).2).1 (by decide)⟩

/-- C6 counterexample: with a programmable Asset Record among the
accounts, a legacy instruction is not rejected with the
unsupported-instruction error when a locked State Record is also present
(lock guard fires first) or when a malformed Asset Record precedes the
programmable one (decode failure propagates); and with a malformed record
and no programmable one, the instruction is not forwarded to the legacy
handler either. -/
theorem C6_counterexample :
    (∃ a ∈ ([⟨1, 7, [11, 0, 1]⟩, ⟨2, 7, [4, 1, 4]⟩] : List AccountInfo),
      pnft_account 7 a) ∧
    process_instruction 7 [⟨1, 7, [11, 0, 1]⟩, ⟨2, 7, [4, 1, 4]⟩]
        .PuffMetadata = .error (.program (.metadata .LockedToken)) ∧
    MetadataError.LockedToken ≠ .InstructionNotSupported ∧
    (∃ a ∈ ([⟨1, 7, [4, 5]⟩, ⟨2, 7, [4, 1, 4]⟩] : List AccountInfo),
      pnft_account 7 a) ∧
    process_instruction 7 [⟨1, 7, [4, 5]⟩, ⟨2, 7, [4, 1, 4]⟩]
        .PuffMetadata = .error (.program .borshIo) ∧
    ProgramError.borshIo ≠ .metadata .InstructionNotSupported ∧
    (¬ ∃ a ∈ ([⟨1, 7, [4, 5]⟩] : List AccountInfo), pnft_account 7 a) ∧
    process_instruction 7 [⟨1, 7, [4, 5]⟩] .PuffMetadata =
      .error (.program .borshIo) ∧
    process_legacy_instruction 7 [⟨1, 7, [4, 5]⟩] .PuffMetadata =
      .ok .process_puff_metadata_account := by decide

end TM
